import Mathlib

/-!
Shallow embedding of the perceptron branch predictor
(`src/branch_predictor.c`) and proofs about its core:
the FNV-based table index, the perceptron dot-product prediction,
the saturating weight update, the history shift registers, the
training gate, and the per-event statistics bookkeeping of the
trace-processing loop.

Modelling conventions:
* C `uint32_t` values are `Nat` (arithmetic that can exceed 32 bits in C
  is reduced `% 2 ^ 32` exactly where the C semantics wraps);
* C `int`/`int8_t` values are `Int` (the C program never overflows them:
  weights are clamped into `[-128, 127]` before being stored);
* C `double` confidence values are modelled as exact `Rat`; the C program
  computes them with deterministic double arithmetic and no verified claim
  depends on their rounded values;
* the mutable globals (`perceptron_table`, `global_history`,
  `path_history`, `statistics`, `current_time`) become one explicit state
  record threaded through the functions;
* file I/O is out of scope: `process_trace_file` consumes the already
  parsed list of `(address, outcome)` records of the trace file.
-/

namespace BranchPredictor

/-- `#define NUM_PERCEPTRONS 1024`. -/
def NUM_PERCEPTRONS : Nat := 1024

/-- `#define HISTORY_LENGTH 64`. -/
def HISTORY_LENGTH : Nat := 64

/-- `#define THETA (int)(2.14 * HISTORY_LENGTH + 20.58)`: the C double
expression evaluates to 157.539…, truncated by the int cast to 157. -/
def THETA : Int := 157

/-- `#define MAX_WEIGHT 127`. -/
def MAX_WEIGHT : Int := 127

/-- `#define MIN_WEIGHT -128`. -/
def MIN_WEIGHT : Int := -128

/-- `#define PATH_HISTORY_MASK 0xF`. -/
def PATH_HISTORY_MASK : Nat := 0xF

/-- `#define FNV_PRIME 16777619`. -/
def FNV_PRIME : Nat := 16777619

/-- `#define FNV_OFFSET_BASIS 2166136261`. -/
def FNV_OFFSET_BASIS : Nat := 2166136261

/-- Modulus of C `uint32_t` arithmetic. -/
def UINT32_MOD : Nat := 2 ^ 32

/-- `perceptron_t`: weight vector (indices `0..HISTORY_LENGTH` are
meaningful, `weights[0]` is the bias), address tag, and telemetry. -/
structure Perceptron where
  weights : Nat → Int
  tag : Nat
  last_update_time : Nat
  times_accessed : Nat

/-- `statistics_t`. -/
structure Statistics where
  total_predictions : Nat
  correct_predictions : Nat
  mispredictions : Nat
  btb_misses : Nat
  training_events : Nat
  strong_predictions : Nat
  weak_predictions : Nat
  avg_confidence : Rat

/-- The global mutable state of the C program: `perceptron_table`,
`global_history`, `path_history`, `statistics`, `current_time`. -/
structure PredictorState where
  table : Nat → Perceptron
  global_history : List Int
  path_history : List Nat
  statistics : Statistics
  current_time : Nat

/-- `compute_perceptron_index`: FNV-1a-variant hash of the address,
masked to the table size. All intermediate values are `uint32_t` in C;
only the multiplication can exceed 32 bits, hence the explicit mod. -/
def compute_perceptron_index (address : Nat) : Nat :=
  let hash0 := FNV_OFFSET_BASIS ^^^ (address >>> 2)
  let hash1 := (hash0 * FNV_PRIME) % UINT32_MOD
  let hash2 := hash1 ^^^ (hash1 >>> 17)
  hash2 &&& (NUM_PERCEPTRONS - 1)

/-- The per-position history signal
`global_history[j] + (path_history[j] & 1)` used by both the prediction
dot product and the weight update. -/
def history_term (g : List Int) (p : List Nat) (j : Nat) : Int :=
  g.getD j 0 + ((p.getD j 0 &&& 1 : Nat) : Int)

/-- `compute_perceptron_output`: `y = weights[0]`, then for
`j = 1..HISTORY_LENGTH` add
`weights[j] * (global_history[j-1] + (path_history[j-1] & 1))`. -/
def compute_perceptron_output (w : Nat → Int) (g : List Int) (p : List Nat) : Int :=
  (List.range HISTORY_LENGTH).foldl (fun y i => y + w (i + 1) * history_term g p i) (w 0)

/-- The saturation of a tentative weight in `update_perceptron_weights`:
`(x > MAX_WEIGHT) ? MAX_WEIGHT : (x < MIN_WEIGHT) ? MIN_WEIGHT : x`. -/
def clamp (x : Int) : Int :=
  if x > MAX_WEIGHT then MAX_WEIGHT else if x < MIN_WEIGHT then MIN_WEIGHT else x

/-- `history_val` of `update_perceptron_weights`: `1` for the bias
index `0`, otherwise the history signal of position `j - 1`. -/
def history_val (g : List Int) (p : List Nat) (j : Nat) : Int :=
  if j = 0 then 1 else history_term g p (j - 1)

/-- `update_perceptron_weights` on the weight vector: each index
`j ≤ HISTORY_LENGTH` becomes
`clamp (weights[j] + actual_outcome * history_val j)`; the indices the
C loop does not visit are untouched.  (The C loop writes in place, but
no `history_val` depends on the weights, so the simultaneous update is
the same function.) -/
def update_perceptron_weights (g : List Int) (p : List Nat)
    (w : Nat → Int) (actual_outcome : Int) : Nat → Int :=
  fun j =>
    if j ≤ HISTORY_LENGTH then clamp (w j + actual_outcome * history_val g p j) else w j

/-- `update_confidence_statistics`: bump the strong/weak counter and
fold the new confidence into the running average (the C doubles are
modelled as exact rationals). -/
def update_confidence_statistics (stats : Statistics) (confidence : Rat) : Statistics :=
  let stats1 :=
    if confidence ≥ 1 then
      { stats with strong_predictions := stats.strong_predictions + 1 }
    else
      { stats with weak_predictions := stats.weak_predictions + 1 }
  { stats1 with
    avg_confidence :=
      (stats1.avg_confidence * (stats1.total_predictions : Rat) + confidence) /
        ((stats1.total_predictions : Rat) + 1) }

/-- Result of `make_prediction`: the returned `y`, the confidence
written through the out-parameter, and the mutated global state. -/
structure PredictResult where
  y : Int
  confidence : Rat
  state : PredictorState

/-- `make_prediction`.  On a tag mismatch: count a BTB miss, overwrite
the slot's tag with `address >> 2`, reset its access counter, report
confidence `0.0` and return `y = 0`, leaving the weights untouched.  On
a tag hit: bump the access counter and the logical clock, compute the
dot product `y`, report `|y| / THETA` and update the confidence
statistics. -/
def make_prediction (s : PredictorState) (address : Nat) : PredictResult :=
  let index := compute_perceptron_index address
  let perceptron := s.table index
  if perceptron.tag ≠ address >>> 2 then
    { y := 0, confidence := 0,
      state :=
        { s with
          table := fun i =>
            if i = index then
              { perceptron with tag := address >>> 2, times_accessed := 0 }
            else s.table i,
          statistics :=
            { s.statistics with btb_misses := s.statistics.btb_misses + 1 } } }
  else
    let y := compute_perceptron_output perceptron.weights s.global_history s.path_history
    let confidence : Rat := (y.natAbs : Rat) / (THETA : Rat)
    { y := y, confidence := confidence,
      state :=
        { s with
          table := fun i =>
            if i = index then
              { perceptron with times_accessed := perceptron.times_accessed + 1 }
            else s.table i,
          current_time := s.current_time + 1,
          statistics := update_confidence_statistics s.statistics confidence } }

/-- `update_history`: shift both registers one position toward higher
indices, dropping the oldest entry, and insert `actual_outcome`
(resp. `address & PATH_HISTORY_MASK`) at position 0. -/
def update_history (s : PredictorState) (address : Nat) (actual_outcome : Int) :
    PredictorState :=
  { s with
    global_history := actual_outcome :: s.global_history.take (HISTORY_LENGTH - 1),
    path_history :=
      (address &&& PATH_HISTORY_MASK) :: s.path_history.take (HISTORY_LENGTH - 1) }

/-- The sign convention `y >= 0 ? 1 : -1` used by both the training gate
and the trace loop's predicted direction. -/
def msign (y : Int) : Int := if y ≥ 0 then 1 else -1

/-- `train_perceptron`: recompute the slot index from the address; if
the prediction was wrong (`msign y ≠ actual_outcome`) or under-confident
(`|y| ≤ THETA`), count a training event and apply the saturating weight
update to that slot (also stamping its last-update time); otherwise do
nothing. -/
def train_perceptron (s : PredictorState) (address : Nat) (actual_outcome y : Int) :
    PredictorState :=
  let index := compute_perceptron_index address
  let perceptron := s.table index
  if msign y ≠ actual_outcome ∨ |y| ≤ THETA then
    { s with
      statistics :=
        { s.statistics with training_events := s.statistics.training_events + 1 },
      table := fun i =>
        if i = index then
          { perceptron with
            weights :=
              update_perceptron_weights s.global_history s.path_history
                perceptron.weights actual_outcome,
            last_update_time := s.current_time }
        else s.table i }
  else s

/-- One iteration of the loop body of `process_trace_file` for the
parsed record `(branch_address, raw_outcome)`: map the raw outcome to
`±1`, predict, count the event as correct or mispredicted (training
only in the latter case), then update the history registers. -/
def process_event (s : PredictorState) (ev : Nat × Int) : PredictorState :=
  let branch_address := ev.1
  let actual_outcome : Int := if ev.2 = 1 then 1 else -1
  let r := make_prediction s branch_address
  let prediction := msign r.y
  let s1 := r.state
  let s2 :=
    { s1 with
      statistics :=
        { s1.statistics with
          total_predictions := s1.statistics.total_predictions + 1 } }
  let s3 :=
    if prediction = actual_outcome then
      { s2 with
        statistics :=
          { s2.statistics with
            correct_predictions := s2.statistics.correct_predictions + 1 } }
    else
      train_perceptron
        { s2 with
          statistics :=
            { s2.statistics with
              mispredictions := s2.statistics.mispredictions + 1 } }
        branch_address actual_outcome r.y
  update_history s3 branch_address actual_outcome

/-- `process_trace_file` on the parsed records of the trace file. -/
def process_trace_file (s : PredictorState) (events : List (Nat × Int)) : PredictorState :=
  events.foldl process_event s

/-- A freshly `calloc`ed slot: zero weights, zero tag, zero telemetry. -/
def init_perceptron : Perceptron :=
  { weights := fun _ => 0, tag := 0, last_update_time := 0, times_accessed := 0 }

/-- The state after a successful `initialize_predictor`: zeroed table,
zeroed history registers, zeroed statistics, `current_time = 0`. -/
def initial_state : PredictorState :=
  { table := fun _ => init_perceptron,
    global_history := List.replicate HISTORY_LENGTH 0,
    path_history := List.replicate HISTORY_LENGTH 0,
    statistics :=
      { total_predictions := 0, correct_predictions := 0, mispredictions := 0,
        btb_misses := 0, training_events := 0, strong_predictions := 0,
        weak_predictions := 0, avg_confidence := 0 },
    current_time := 0 }

/-- The table index exactly as §4.1 of the spec words it: start from the
offset basis, XOR in the address with its two low bits dropped, multiply
by the FNV prime mod `2 ^ 32`, XOR the hash with itself shifted right 17
bits, and reduce by the power-of-two table size. -/
def spec_hash_index (address : Nat) : Nat :=
  let hash0 := FNV_OFFSET_BASIS
  let hash1 := hash0 ^^^ (address / 4)
  let hash2 := (hash1 * FNV_PRIME) % 2 ^ 32
  let hash3 := hash2 ^^^ (hash2 / 2 ^ 17)
  hash3 % NUM_PERCEPTRONS

/-- All weights of all slots lie in `[MIN_WEIGHT, MAX_WEIGHT]`. -/
def weights_in_range (s : PredictorState) : Prop :=
  ∀ i j, MIN_WEIGHT ≤ (s.table i).weights j ∧ (s.table i).weights j ≤ MAX_WEIGHT

/-- A bare sequence of `train_perceptron` calls (no intervening
prediction or history update), as in an adversarial saturation test. -/
def train_calls (s : PredictorState) : List (Nat × Int × Int) → PredictorState :=
  fun calls => calls.foldl (fun t c => train_perceptron t c.1 c.2.1 c.2.2) s

/-- The number of events of a trace whose prediction is correct but
under-confident (`|y| ≤ THETA`), evaluated along the run. -/
def low_conf_correct_count : PredictorState → List (Nat × Int) → Nat
  | _, [] => 0
  | s, ev :: rest =>
    (if msign (make_prediction s ev.1).y = (if ev.2 = 1 then (1 : Int) else -1) ∧
        |(make_prediction s ev.1).y| ≤ THETA
     then 1 else 0) +
      low_conf_correct_count (process_event s ev) rest

/-- The observable per-event outputs of a run: the `(y, confidence)`
pair `make_prediction` produces for each event, in order. -/
def trace_outputs : PredictorState → List (Nat × Int) → List (Int × Rat)
  | _, [] => []
  | s, ev :: rest =>
    ((make_prediction s ev.1).y, (make_prediction s ev.1).confidence) ::
      trace_outputs (process_event s ev) rest

/-! ### Helper lemmas -/

lemma and_1023_eq_mod (x : Nat) : x &&& 1023 = x % 1024 := by
  have h := Nat.and_pow_two_sub_one_eq_mod x 10
  norm_num at h
  exact h

lemma clamp_mem (x : Int) : MIN_WEIGHT ≤ clamp x ∧ clamp x ≤ MAX_WEIGHT := by
  simp only [clamp, MIN_WEIGHT, MAX_WEIGHT]
  split_ifs <;> omega

lemma foldl_range_add (f : Nat → Int) (a : Int) (n : Nat) :
    (List.range n).foldl (fun y i => y + f i) a = a + ∑ i ∈ Finset.range n, f i := by
  induction n with
  | zero => simp
  | succ n ih =>
    rw [List.range_succ, List.foldl_append, ih, Finset.sum_range_succ]
    simp [add_assoc]

lemma compute_perceptron_output_eq_sum (w : Nat → Int) (g : List Int) (p : List Nat) :
    compute_perceptron_output w g p
      = w 0 + ∑ i ∈ Finset.range HISTORY_LENGTH, w (i + 1) * history_term g p i := by
  simpa only [compute_perceptron_output] using
    foldl_range_add (fun i => w (i + 1) * history_term g p i) (w 0) HISTORY_LENGTH

lemma getD_take {α : Type} (l : List α) (n i : Nat) (d : α) (h : i < n) :
    (l.take n).getD i d = l.getD i d := by
  simp [List.getD_eq_getElem?_getD, List.getElem?_take, h]

lemma train_perceptron_training_events (s : PredictorState) (address : Nat) (a y : Int) :
    (train_perceptron s address a y).statistics.training_events
      = s.statistics.training_events + (if msign y ≠ a ∨ |y| ≤ THETA then 1 else 0) := by
  simp only [train_perceptron]
  split_ifs <;> simp

lemma train_perceptron_total (s : PredictorState) (address : Nat) (a y : Int) :
    (train_perceptron s address a y).statistics.total_predictions
      = s.statistics.total_predictions := by
  simp only [train_perceptron]
  split_ifs <;> simp

lemma train_perceptron_correct (s : PredictorState) (address : Nat) (a y : Int) :
    (train_perceptron s address a y).statistics.correct_predictions
      = s.statistics.correct_predictions := by
  simp only [train_perceptron]
  split_ifs <;> simp

lemma train_perceptron_mispredictions (s : PredictorState) (address : Nat) (a y : Int) :
    (train_perceptron s address a y).statistics.mispredictions
      = s.statistics.mispredictions := by
  simp only [train_perceptron]
  split_ifs <;> simp

lemma make_prediction_total (s : PredictorState) (address : Nat) :
    (make_prediction s address).state.statistics.total_predictions
      = s.statistics.total_predictions := by
  simp only [make_prediction, update_confidence_statistics]
  split_ifs <;> simp

lemma make_prediction_correct (s : PredictorState) (address : Nat) :
    (make_prediction s address).state.statistics.correct_predictions
      = s.statistics.correct_predictions := by
  simp only [make_prediction, update_confidence_statistics]
  split_ifs <;> simp

lemma make_prediction_mispredictions (s : PredictorState) (address : Nat) :
    (make_prediction s address).state.statistics.mispredictions
      = s.statistics.mispredictions := by
  simp only [make_prediction, update_confidence_statistics]
  split_ifs <;> simp

lemma make_prediction_training_events (s : PredictorState) (address : Nat) :
    (make_prediction s address).state.statistics.training_events
      = s.statistics.training_events := by
  simp only [make_prediction, update_confidence_statistics]
  split_ifs <;> simp

lemma update_history_statistics (s : PredictorState) (address : Nat) (a : Int) :
    (update_history s address a).statistics = s.statistics := rfl

lemma update_history_table (s : PredictorState) (address : Nat) (a : Int) :
    (update_history s address a).table = s.table := rfl

lemma process_event_statistics (s : PredictorState) (ev : Nat × Int) :
    (process_event s ev).statistics.total_predictions = s.statistics.total_predictions + 1 ∧
    (((process_event s ev).statistics.correct_predictions
          = s.statistics.correct_predictions + 1 ∧
        (process_event s ev).statistics.mispredictions = s.statistics.mispredictions ∧
        (process_event s ev).statistics.training_events = s.statistics.training_events) ∨
      ((process_event s ev).statistics.correct_predictions
          = s.statistics.correct_predictions ∧
        (process_event s ev).statistics.mispredictions = s.statistics.mispredictions + 1 ∧
        (process_event s ev).statistics.training_events
          = s.statistics.training_events + 1)) := by
  simp only [process_event, update_history_statistics]
  by_cases hp : msign (make_prediction s ev.1).y = (if ev.2 = 1 then (1 : Int) else -1)
  · rw [if_pos hp]
    refine ⟨?_, Or.inl ⟨?_, ?_, ?_⟩⟩ <;>
      simp [make_prediction_total, make_prediction_correct, make_prediction_mispredictions,
        make_prediction_training_events]
  · rw [if_neg hp]
    refine ⟨?_, Or.inr ⟨?_, ?_, ?_⟩⟩
    · simp [train_perceptron_total, make_prediction_total]
    · simp [train_perceptron_correct, make_prediction_correct]
    · simp [train_perceptron_mispredictions, make_prediction_mispredictions]
    · rw [train_perceptron_training_events, if_pos (Or.inl hp)]
      simp [make_prediction_training_events]

lemma trace_statistics (events : List (Nat × Int)) : ∀ s : PredictorState,
    (process_trace_file s events).statistics.total_predictions
        = s.statistics.total_predictions + events.length ∧
    (process_trace_file s events).statistics.correct_predictions
          + (process_trace_file s events).statistics.mispredictions
        = s.statistics.correct_predictions + s.statistics.mispredictions + events.length ∧
    (process_trace_file s events).statistics.training_events
          + s.statistics.mispredictions
        = s.statistics.training_events
          + (process_trace_file s events).statistics.mispredictions := by
  induction events with
  | nil => intro s; simp [process_trace_file]
  | cons ev rest ih =>
    intro s
    have h1 := process_event_statistics s ev
    have h2 := ih (process_event s ev)
    simp only [process_trace_file, List.foldl_cons, List.length_cons] at h2 ⊢
    obtain ⟨ht, hcm⟩ := h1
    obtain ⟨t2, c2, tr2⟩ := h2
    refine ⟨by omega, ?_, ?_⟩ <;>
      rcases hcm with ⟨hc, hm, htr⟩ | ⟨hc, hm, htr⟩ <;> omega

lemma weights_in_range_update (g : List Int) (p : List Nat) (w : Nat → Int) (a : Int)
    (hw : ∀ j, MIN_WEIGHT ≤ w j ∧ w j ≤ MAX_WEIGHT) :
    ∀ j, MIN_WEIGHT ≤ update_perceptron_weights g p w a j ∧
      update_perceptron_weights g p w a j ≤ MAX_WEIGHT := by
  intro j
  simp only [update_perceptron_weights]
  split
  · exact clamp_mem _
  · exact hw j

lemma weights_in_range_train (s : PredictorState) (address : Nat) (a y : Int)
    (h : weights_in_range s) : weights_in_range (train_perceptron s address a y) := by
  simp only [train_perceptron]
  split
  · intro i j
    dsimp only
    by_cases hi : i = compute_perceptron_index address
    · simp only [hi, if_pos rfl]
      exact weights_in_range_update _ _ _ _ (fun j => h _ j) j
    · simp only [if_neg hi]
      exact h i j
  · exact h

lemma weights_in_range_predict (s : PredictorState) (address : Nat)
    (h : weights_in_range s) : weights_in_range (make_prediction s address).state := by
  intro i j
  simp only [make_prediction]
  split <;>
    (dsimp only
     by_cases hi : i = compute_perceptron_index address
     · simp only [hi, if_pos rfl]
       exact h _ j
     · simp only [if_neg hi]
       exact h i j)

lemma weights_in_range_event (s : PredictorState) (ev : Nat × Int)
    (h : weights_in_range s) : weights_in_range (process_event s ev) := by
  have h1 := weights_in_range_predict s ev.1 h
  simp only [process_event]
  by_cases hp : msign (make_prediction s ev.1).y = (if ev.2 = 1 then (1 : Int) else -1)
  · rw [if_pos hp]
    exact fun i j => h1 i j
  · rw [if_neg hp]
    intro i j
    refine weights_in_range_train _ ev.1 _ _ ?_ i j
    exact fun i' j' => h1 i' j'

lemma weights_in_range_trace (events : List (Nat × Int)) :
    ∀ s : PredictorState, weights_in_range s →
      weights_in_range (process_trace_file s events) := by
  induction events with
  | nil => intro s h; exact h
  | cons ev rest ih =>
    intro s h
    simp only [process_trace_file, List.foldl_cons] at ih ⊢
    exact ih _ (weights_in_range_event s ev h)

lemma weights_in_range_train_calls (calls : List (Nat × Int × Int)) :
    ∀ s : PredictorState, weights_in_range s →
      weights_in_range (train_calls s calls) := by
  induction calls with
  | nil => intro s h; exact h
  | cons c rest ih =>
    intro s h
    simp only [train_calls, List.foldl_cons] at ih ⊢
    exact ih _ (weights_in_range_train s c.1 c.2.1 c.2.2 h)

lemma weights_in_range_initial : weights_in_range initial_state := by
  intro i j
  simp only [initial_state, init_perceptron, MIN_WEIGHT, MAX_WEIGHT]
  norm_num

/-! ### Claim theorems -/

/-- C1, counterexample to the claim as stated: in the initially empty
table, processing the single event `(address = 0x1000, outcome = taken)`
does NOT yield `mispredictions = 1` with a training invocation — the
miss path returns `y = 0`, the driver maps `y ≥ 0` to taken, so the
prediction matches the actual outcome. -/
theorem tag_miss_scenario_counterexample :
    ¬ ((process_trace_file initial_state [(4096, 1)]).statistics.mispredictions = 1 ∧
        (process_trace_file initial_state [(4096, 1)]).statistics.training_events = 1) := by
  decide

/-- C1 (amended): for every address whose slot tag differs from
`address >> 2`, `make_prediction` returns `y = 0` (which the trace
driver's `y >= 0` convention maps to direction taken) with confidence
`0.0`, increments `btb_misses` by exactly 1, overwrites the slot tag
with `address >> 2`, and leaves the slot's weights unchanged; in the
initially empty table with `H = 64`, processing the single event
`(address = 0x1000, outcome = taken)` yields `btb_misses = 1`,
`total_predictions = 1`, `correct_predictions = 1`,
`mispredictions = 0`, and no training invocation. -/
theorem tag_miss_behavior (s : PredictorState) (address : Nat)
    (h : (s.table (compute_perceptron_index address)).tag ≠ address >>> 2) :
    (make_prediction s address).y = 0 ∧
    (make_prediction s address).confidence = 0 ∧
    (make_prediction s address).state.statistics.btb_misses
      = s.statistics.btb_misses + 1 ∧
    ((make_prediction s address).state.table (compute_perceptron_index address)).tag
      = address >>> 2 ∧
    ((make_prediction s address).state.table (compute_perceptron_index address)).weights
      = (s.table (compute_perceptron_index address)).weights ∧
    msign 0 = 1 ∧
    (process_trace_file initial_state [(4096, 1)]).statistics.btb_misses = 1 ∧
    (process_trace_file initial_state [(4096, 1)]).statistics.total_predictions = 1 ∧
    (process_trace_file initial_state [(4096, 1)]).statistics.correct_predictions = 1 ∧
    (process_trace_file initial_state [(4096, 1)]).statistics.mispredictions = 0 ∧
    (process_trace_file initial_state [(4096, 1)]).statistics.training_events = 0 := by
  simp only [make_prediction]
  rw [if_pos h]
  refine ⟨rfl, rfl, rfl, ?_, ?_, by decide, by decide, by decide, by decide, by decide,
    by decide⟩
  · simp
  · simp

/-- Witness for the C1 theorem at the concrete miss
`(initial_state, address = 0x1000)`. -/
theorem tag_miss_behavior_witness :
    ((initial_state.table (compute_perceptron_index 4096)).tag ≠ 4096 >>> 2) ∧
    (make_prediction initial_state 4096).y = 0 ∧
    (make_prediction initial_state 4096).state.statistics.btb_misses
      = initial_state.statistics.btb_misses + 1 := by
  have h : (initial_state.table (compute_perceptron_index 4096)).tag ≠ 4096 >>> 2 := by
    decide
  exact ⟨h, (tag_miss_behavior initial_state 4096 h).1,
    (tag_miss_behavior initial_state 4096 h).2.2.1⟩

/-- C2: `train_perceptron` increments `training_events` exactly when
`sign(y) ≠ actual_outcome ∨ |y| ≤ THETA`; when the condition holds the
slot's weights become the saturating update of the old ones, and when
it fails the whole state is unchanged. -/
theorem training_gate_characterization (s : PredictorState) (address : Nat) (a y : Int) :
    ((train_perceptron s address a y).statistics.training_events
        = s.statistics.training_events
          + (if msign y ≠ a ∨ |y| ≤ THETA then 1 else 0)) ∧
    ((msign y ≠ a ∨ |y| ≤ THETA) →
      ((train_perceptron s address a y).table (compute_perceptron_index address)).weights
        = update_perceptron_weights s.global_history s.path_history
            ((s.table (compute_perceptron_index address)).weights) a) ∧
    (¬ (msign y ≠ a ∨ |y| ≤ THETA) → train_perceptron s address a y = s) := by
  refine ⟨train_perceptron_training_events s address a y, ?_, ?_⟩
  · intro hg
    simp only [train_perceptron]
    rw [if_pos hg]
    simp
  · intro hg
    simp only [train_perceptron]
    rw [if_neg hg]

/-- Witness for the C2 theorem at the gate-true input
`(initial_state, address = 0, actual = 1, y = 0)`. -/
theorem training_gate_witness :
    (msign 0 ≠ (1 : Int) ∨ |(0 : Int)| ≤ THETA) ∧
    (train_perceptron initial_state 0 1 0).statistics.training_events
      = initial_state.statistics.training_events + 1 ∧
    ((train_perceptron initial_state 0 1 0).table (compute_perceptron_index 0)).weights
      = update_perceptron_weights initial_state.global_history
          initial_state.path_history
          ((initial_state.table (compute_perceptron_index 0)).weights) 1 := by
  have hg : msign 0 ≠ (1 : Int) ∨ |(0 : Int)| ≤ THETA := Or.inr (by decide)
  have h := training_gate_characterization initial_state 0 1 0
  refine ⟨hg, ?_, h.2.1 hg⟩
  rw [h.1, if_pos hg]

/-- C3: each in-range training step sets `weights[j]` to
`clamp (weights[j] + actual_outcome * h_j, MIN_WEIGHT, MAX_WEIGHT)`,
the clamp always lands in `[-128, 127]`, and therefore from the
all-zero initial table every weight of every slot stays within
`[-128, 127]` under any sequence of training calls and under any
processed trace — the update never wraps. -/
theorem weight_saturation :
    (∀ (g : List Int) (p : List Nat) (w : Nat → Int) (a : Int) (j : Nat),
        j ≤ HISTORY_LENGTH →
        update_perceptron_weights g p w a j = clamp (w j + a * history_val g p j)) ∧
    (∀ x : Int, MIN_WEIGHT ≤ clamp x ∧ clamp x ≤ MAX_WEIGHT) ∧
    (∀ calls : List (Nat × Int × Int),
        weights_in_range (train_calls initial_state calls)) ∧
    (∀ events : List (Nat × Int),
        weights_in_range (process_trace_file initial_state events)) := by
  refine ⟨?_, clamp_mem, ?_, ?_⟩
  · intro g p w a j hj
    simp only [update_perceptron_weights, if_pos hj]
  · intro calls
    exact weights_in_range_train_calls calls initial_state weights_in_range_initial
  · intro events
    exact weights_in_range_trace events initial_state weights_in_range_initial

/-- Witness for the C3 theorem: the update rule at bias index 0 of the
zero weight vector, and the invariant after the empty trace. -/
theorem weight_saturation_witness :
    ((0 : Nat) ≤ HISTORY_LENGTH) ∧
    update_perceptron_weights (List.replicate HISTORY_LENGTH 0)
        (List.replicate HISTORY_LENGTH 0) (fun _ => 0) 1 0
      = clamp ((fun _ => (0 : Int)) 0
          + 1 * history_val (List.replicate HISTORY_LENGTH 0)
              (List.replicate HISTORY_LENGTH 0) 0) ∧
    weights_in_range (process_trace_file initial_state []) := by
  refine ⟨Nat.zero_le _, ?_, weight_saturation.2.2.2 []⟩
  exact weight_saturation.1 _ _ _ 1 0 (Nat.zero_le _)

/-- C4: per processed event exactly one of `correct_predictions` and
`mispredictions` is incremented; consequently over any trace from the
initial state `correct_predictions + mispredictions =
total_predictions`, and `training_events` is bounded by
`mispredictions` plus the number of low-confidence correct
predictions. -/
theorem statistics_consistency :
    (∀ (s : PredictorState) (ev : Nat × Int),
        ((process_event s ev).statistics.correct_predictions
              = s.statistics.correct_predictions + 1 ∧
            (process_event s ev).statistics.mispredictions
              = s.statistics.mispredictions) ∨
          ((process_event s ev).statistics.correct_predictions
              = s.statistics.correct_predictions ∧
            (process_event s ev).statistics.mispredictions
              = s.statistics.mispredictions + 1)) ∧
    (∀ events : List (Nat × Int),
        (process_trace_file initial_state events).statistics.correct_predictions
            + (process_trace_file initial_state events).statistics.mispredictions
          = (process_trace_file initial_state events).statistics.total_predictions) ∧
    (∀ events : List (Nat × Int),
        (process_trace_file initial_state events).statistics.training_events
          ≤ (process_trace_file initial_state events).statistics.mispredictions
            + low_conf_correct_count initial_state events) := by
  refine ⟨?_, ?_, ?_⟩
  · intro s ev
    rcases (process_event_statistics s ev).2 with ⟨hc, hm, -⟩ | ⟨hc, hm, -⟩
    · exact Or.inl ⟨hc, hm⟩
    · exact Or.inr ⟨hc, hm⟩
  · intro events
    obtain ⟨h1, h2, -⟩ := trace_statistics events initial_state
    rw [show initial_state.statistics.total_predictions = 0 from rfl] at h1
    rw [show initial_state.statistics.correct_predictions = 0 from rfl,
      show initial_state.statistics.mispredictions = 0 from rfl] at h2
    omega
  · intro events
    obtain ⟨-, -, h3⟩ := trace_statistics events initial_state
    rw [show initial_state.statistics.training_events = 0 from rfl,
      show initial_state.statistics.mispredictions = 0 from rfl] at h3
    omega

/-- C10: over any processed trace from the initial state,
`training_events` equals `mispredictions` exactly: the driver calls
`train_perceptron` only on a misprediction, and there the gate's first
disjunct `sign(y) ≠ actual_outcome` holds (with `sign 0 = +1`), so
every invocation updates the weights and counts a training event. -/
theorem training_events_eq_mispredictions (events : List (Nat × Int)) :
    (process_trace_file initial_state events).statistics.training_events
      = (process_trace_file initial_state events).statistics.mispredictions := by
  obtain ⟨-, -, h3⟩ := trace_statistics events initial_state
  rw [show initial_state.statistics.training_events = 0 from rfl,
    show initial_state.statistics.mispredictions = 0 from rfl] at h3
  omega

/-- C5: on a tag hit, `make_prediction` returns `y` equal to
`weights[0]` plus the sum over the `HISTORY_LENGTH` history positions of
`weights[j] * (GlobalHistory[j-1] + (PathHistory[j-1] & 1))`, as exact
integer arithmetic over the current history registers and slot
weights. -/
theorem hit_prediction_output (s : PredictorState) (address : Nat)
    (h : (s.table (compute_perceptron_index address)).tag = address >>> 2) :
    (make_prediction s address).y
      = (s.table (compute_perceptron_index address)).weights 0
        + ∑ i ∈ Finset.range HISTORY_LENGTH,
            (s.table (compute_perceptron_index address)).weights (i + 1)
              * (s.global_history.getD i 0
                  + ((s.path_history.getD i 0 &&& 1 : Nat) : Int)) := by
  simp only [make_prediction]
  rw [if_neg (not_not_intro h)]
  dsimp only
  rw [compute_perceptron_output_eq_sum]
  simp [history_term]

/-- Witness for the C5 theorem at the concrete tag hit
`(initial_state, address = 0)` (the zeroed table's tag 0 matches
`0 >> 2`). -/
theorem hit_prediction_output_witness :
    ((initial_state.table (compute_perceptron_index 0)).tag = 0 >>> 2) ∧
    (make_prediction initial_state 0).y
      = (initial_state.table (compute_perceptron_index 0)).weights 0
        + ∑ i ∈ Finset.range HISTORY_LENGTH,
            (initial_state.table (compute_perceptron_index 0)).weights (i + 1)
              * (initial_state.global_history.getD i 0
                  + ((initial_state.path_history.getD i 0 &&& 1 : Nat) : Int)) := by
  have h : (initial_state.table (compute_perceptron_index 0)).tag = 0 >>> 2 := by decide
  exact ⟨h, hit_prediction_output initial_state 0 h⟩

/-- C6: the table index is a pure function of the address equal to the
FNV-1a variant the spec describes, it always lies below
`NUM_PERCEPTRONS`, and `train_perceptron` touches no slot other than
the one `compute_perceptron_index` selects for the same address (the
slot the prediction used). -/
theorem hash_index_properties :
    (∀ address : Nat, compute_perceptron_index address < NUM_PERCEPTRONS) ∧
    (∀ address : Nat, compute_perceptron_index address = spec_hash_index address) ∧
    (∀ (s : PredictorState) (address : Nat) (a y : Int) (i : Nat),
        i ≠ compute_perceptron_index address →
        (train_perceptron s address a y).table i = s.table i) := by
  refine ⟨?_, ?_, ?_⟩
  · intro address
    simp only [compute_perceptron_index, NUM_PERCEPTRONS]
    exact lt_of_le_of_lt Nat.and_le_right (by norm_num)
  · intro address
    simp only [compute_perceptron_index, spec_hash_index, NUM_PERCEPTRONS, UINT32_MOD]
    rw [Nat.shiftRight_eq_div_pow, Nat.shiftRight_eq_div_pow]
    norm_num [and_1023_eq_mod]
  · intro s address a y i hi
    simp only [train_perceptron]
    split
    · simp [hi]
    · rfl

/-- Witness for the C6 theorem: training at address `0x1000` leaves the
slot just above the selected one untouched. -/
theorem hash_index_witness :
    (compute_perceptron_index 4096 + 1 ≠ compute_perceptron_index 4096) ∧
    (train_perceptron initial_state 4096 1 0).table (compute_perceptron_index 4096 + 1)
      = initial_state.table (compute_perceptron_index 4096 + 1) := by
  have h : compute_perceptron_index 4096 + 1 ≠ compute_perceptron_index 4096 := by omega
  exact ⟨h, hash_index_properties.2.2 initial_state 4096 1 0 _ h⟩

/-- C7: `update_history` keeps both registers at exactly
`HISTORY_LENGTH` entries, inserts `actual_outcome` (resp.
`address & 0xF`) at index 0, and shifts every surviving entry one
position toward higher indices, dropping the oldest. -/
theorem history_shift (s : PredictorState) (address : Nat) (a : Int)
    (hg : s.global_history.length = HISTORY_LENGTH)
    (hp : s.path_history.length = HISTORY_LENGTH) :
    (update_history s address a).global_history.length = HISTORY_LENGTH ∧
    (update_history s address a).path_history.length = HISTORY_LENGTH ∧
    (update_history s address a).global_history.getD 0 0 = a ∧
    (update_history s address a).path_history.getD 0 0
      = address &&& PATH_HISTORY_MASK ∧
    (∀ i, i + 1 < HISTORY_LENGTH →
        (update_history s address a).global_history.getD (i + 1) 0
          = s.global_history.getD i 0) ∧
    (∀ i, i + 1 < HISTORY_LENGTH →
        (update_history s address a).path_history.getD (i + 1) 0
          = s.path_history.getD i 0) := by
  refine ⟨?_, ?_, rfl, rfl, ?_, ?_⟩
  · simp only [update_history, List.length_cons, List.length_take, hg]
    decide
  · simp only [update_history, List.length_cons, List.length_take, hp]
    decide
  · intro i hi
    simp only [update_history, List.getD_cons_succ]
    exact getD_take _ _ _ _ (by omega)
  · intro i hi
    simp only [update_history, List.getD_cons_succ]
    exact getD_take _ _ _ _ (by omega)

/-- Witness for the C7 theorem at the concrete call
`update_history initial_state 5 1`. -/
theorem history_shift_witness :
    (initial_state.global_history.length = HISTORY_LENGTH) ∧
    (initial_state.path_history.length = HISTORY_LENGTH) ∧
    (update_history initial_state 5 1).global_history.length = HISTORY_LENGTH ∧
    (update_history initial_state 5 1).global_history.getD 0 0 = 1 ∧
    (update_history initial_state 5 1).path_history.getD 0 0
      = 5 &&& PATH_HISTORY_MASK := by
  have hg : initial_state.global_history.length = HISTORY_LENGTH := by decide
  have hp : initial_state.path_history.length = HISTORY_LENGTH := by decide
  obtain ⟨l1, -, g0, p0, -, -⟩ := history_shift initial_state 5 1 hg hp
  exact ⟨hg, hp, l1, g0, p0⟩

/-- C9: the predict/train/update-history pipeline is a pure function of
the initial state and the event stream: two runs over equal inputs
produce identical per-event outputs and identical final state. -/
theorem run_determinism (s1 s2 : PredictorState) (evs1 evs2 : List (Nat × Int))
    (hs : s1 = s2) (he : evs1 = evs2) :
    process_trace_file s1 evs1 = process_trace_file s2 evs2 ∧
    trace_outputs s1 evs1 = trace_outputs s2 evs2 := by
  subst hs
  subst he
  exact ⟨rfl, rfl⟩

/-- Witness for the C9 theorem on the concrete one-event trace. -/
theorem run_determinism_witness :
    (initial_state = initial_state) ∧
    ([((4096 : Nat), (1 : Int))] = [((4096 : Nat), (1 : Int))]) ∧
    process_trace_file initial_state [(4096, 1)]
      = process_trace_file initial_state [(4096, 1)] ∧
    trace_outputs initial_state [(4096, 1)]
      = trace_outputs initial_state [(4096, 1)] := by
  refine ⟨rfl, rfl, ?_, ?_⟩
  · exact (run_determinism initial_state initial_state [(4096, 1)] [(4096, 1)] rfl rfl).1
  · exact (run_determinism initial_state initial_state [(4096, 1)] [(4096, 1)] rfl rfl).2

end BranchPredictor
